import Mathlib

/-
Verification of the request-configuration layer of `src/lib/contentful.js`
(the `createClient` factory, `createURL`, `createDefaultHeaders`,
`createNonAxiosHTTPClient` and the `get` operation of the returned client).

Modelling conventions:
- JavaScript objects holding headers are modelled as association lists
  (`HMap`) living in an explicit heap (`Heap`, a list of `HMap`s indexed by
  `Ref := Nat`), so that in-place mutation and aliasing are observable.
- JS truthiness of possibly-absent strings is `jsTruthyS`; string
  interpolation of a possibly-undefined value is `jsRender`.
- `String.prototype.split(':')` is `jsSplitColon`, via `splitChar` on the
  character list.
- The runtime probe `process && process.release && process.release.name
  === 'node'` is passed in as the boolean `isNode`, and `process.version`
  as `nodeVersion`.
- A thrown `TypeError` is an `Except.error` carrying the message; the
  success path returns the resulting heap, the (possibly mutated) params
  record and the constructed client.
-/

set_option autoImplicit false

/-- Headers object: an association list from header names to values,
first binding of a key wins on lookup, as JS object keys are unique. -/
abbrev HMap := List (String × String)

/-- Reference to a heap-allocated JS object. -/
abbrev Ref := Nat

/-- Heap of header objects: `Ref` is the index into the list. -/
abbrev Heap := List HMap

/-- Read a JS object property (`m[k]`). -/
def objGet : HMap → String → Option String
  | [], _ => none
  | (k, v) :: rest, key => if k = key then some v else objGet rest key

/-- Write a JS object property in place (`m[k] = v`): replaces the
existing binding or appends a new one. -/
def objSet : HMap → String → String → HMap
  | [], key, v => [(key, v)]
  | (k, w) :: rest, key, v =>
    if k = key then (key, v) :: rest else (k, w) :: objSet rest key v

/-- Lodash `assign(target, src)` on the contents of two objects: every own
key of `src` is written into `target`, later entries of `src` winning. -/
def objAssign (target src : HMap) : HMap :=
  src.foldl (fun acc kv => objSet acc kv.1 kv.2) target

/-- Dereference: out-of-range reads give the empty object (never happens
for refs produced by `alloc`). -/
def readRef (h : Heap) (r : Ref) : HMap := h.getD r []

/-- In-place update of the object at `r`. -/
def writeRef (h : Heap) (r : Ref) (m : HMap) : Heap := h.set r m

/-- Allocate a fresh object holding `m`, returning the new heap and the
fresh reference. -/
def alloc (h : Heap) (m : HMap) : Heap × Ref := (h ++ [m], h.length)

/-- JS truthiness of a possibly-absent string: `undefined` and `""` are
falsy, every other string is truthy. -/
def jsTruthyS : Option String → Bool
  | none => false
  | some s => s != ""

/-- JS template-string rendering of a possibly-undefined string value. -/
def jsRender : Option String → String
  | none => "undefined"
  | some s => s

/-- Split a character list at every occurrence of `sep`, JS
`String.prototype.split` style (always at least one group). -/
def splitChar (sep : Char) : List Char → List (List Char)
  | [] => [[]]
  | c :: rest =>
    match splitChar sep rest with
    | [] => [[]]
    | g :: gs => if c = sep then [] :: g :: gs else (c :: g) :: gs

/-- JS `host.split(':')`. -/
def jsSplitColon (s : String) : List String :=
  (splitChar ':' s.data).map (fun l => String.mk l)

/-- Modelled from the spec: the SDK version constant imported from
`version.js`, which is not among the given sources; the spec only calls it
a fixed SDK identifier plus version. No claim depends on its value. -/
def version : String := "0.0.0"

/-- Modelled from the spec: the external user-agent-formatting collaborator
`getUserAgentHeader` from `contentful-sdk-core` (not part of these
sources), treated by the spec as a black box taking
(sdkName, application, integration) to a composed signature string. -/
def getUserAgentHeader (sdk : String) (application integration : Option String) : String :=
  (match application with | some a => a ++ "; " | none => "") ++
  (match integration with | some i => i ++ "; " | none => "") ++ sdk

/-- The caller-supplied parameter object of `createClient`. `Option`
models key presence; `headers` and `defaultHeaders` are references to
heap-allocated objects so that in-place mutation is observable.
`defaultHostname` is not a documented option, but `createClient` writes it
and `createURL` reads it, so it is a field of the record. -/
structure Params where
  accessToken : Option String := none
  space : Option String := none
  insecure : Bool := false
  host : Option String := none
  headers : Option Ref := none
  defaultHeaders : Option Ref := none
  defaultHostname : Option String := none
  resolveLinks : Option Bool := none
  application : Option String := none
  integration : Option String := none
deriving DecidableEq

/-- The object literal merged into `params.headers` by `createClient`. -/
def protocolHeaders (userAgentHeader : String) : HMap :=
  [("Content-Type", "application/vnd.contentful.delivery.v1+json"),
   ("X-Contentful-User-Agent", userAgentHeader)]

/-- The normalized resolve-links flag:
`!!('resolveLinks' in params ? params.resolveLinks : true)`. -/
def resolveLinksFlag (params : Params) : Bool :=
  match params.resolveLinks with
  | some b => b
  | none => true

/-- `createURL(params)` from `src/lib/contentful.js`: derives the base URL
from `host`, `insecure`, `defaultHostname` and `space`. -/
def createURL (params : Params) : String :=
  let parts : List String :=
    match params.host with
    | some host => if host = "" then [] else jsSplitColon host
    | none => []
  let hostname : Option String :=
    if jsTruthyS parts[0]? then parts[0]? else params.defaultHostname
  let port : String :=
    if jsTruthyS parts[1]? then jsRender parts[1]?
    else if params.insecure then "80" else "443"
  let baseURL :=
    (if params.insecure then "http" else "https") ++ "://" ++
      jsRender hostname ++ ":" ++ port ++ "/spaces/"
  if jsTruthyS params.space then baseURL ++ jsRender params.space ++ "/" else baseURL

/-- `createDefaultHeaders(params)` from `src/lib/contentful.js`: starts
from `params.defaultHeaders || {}` (aliasing the caller's object when
present, allocating a fresh one otherwise), force-sets `Authorization`,
and, only when the runtime probe detects node, force-sets `user-agent`
and `Accept-Encoding`. Returns the heap and the object reference. -/
def createDefaultHeaders (h : Heap) (params : Params) (isNode : Bool)
    (nodeVersion : String) : Heap × Ref :=
  let start : Heap × Ref :=
    match params.defaultHeaders with
    | some r => (h, r)
    | none => alloc h []
  let h1 := start.1
  let r := start.2
  let h2 := writeRef h1 r
    (objSet (readRef h1 r) "Authorization" ("Bearer " ++ jsRender params.accessToken))
  if isNode then
    let h3 := writeRef h2 r
      (objSet (readRef h2 r) "user-agent" ("node.js/" ++ nodeVersion))
    let h4 := writeRef h3 r (objSet (readRef h3 r) "Accept-Encoding" "gzip")
    (h4, r)
  else
    (h2, r)

/-- The client object built by `createNonAxiosHTTPClient`: it closes over
the derived base URL and the reference to its default-headers object. -/
structure HttpClient where
  baseURL : String
  defaultHeaders : Ref
deriving DecidableEq

/-- The per-call options object of `get(path, options)`. `none` fields
model absent keys. -/
structure GetOptions where
  query : Option (List (String × String)) := none
  headers : Option HMap := none
deriving DecidableEq

/-- The outgoing request assembled by `get`: URL, query and the merged
header set handed to the transport. -/
structure Request where
  url : String
  query : Option (List (String × String))
  headers : HMap
deriving DecidableEq

/-- `get(path, options)` of the client returned by
`createNonAxiosHTTPClient`. Accessing `options.headers` when `options` is
`undefined` throws synchronously (modelled as `Except.error`); otherwise
the defaults object is cloned, `options.headers || {}` is assigned over
the clone, and the request is issued with the merged headers. -/
def HttpClient.get (h : Heap) (c : HttpClient) (path : String)
    (options : Option GetOptions) : Except String (Heap × Request) :=
  match options with
  | none => Except.error "TypeError: cannot read property headers of undefined"
  | some opts =>
    let fresh := alloc h (readRef h c.defaultHeaders)
    let h1 := fresh.1
    let tmp := fresh.2
    let h2 := writeRef h1 tmp (objAssign (readRef h1 tmp) (opts.headers.getD []))
    Except.ok (h2,
      { url := c.baseURL ++ path
        query := opts.query
        headers := readRef h2 tmp })

/-- `createNonAxiosHTTPClient(params)` from `src/lib/contentful.js`. -/
def createNonAxiosHTTPClient (h : Heap) (params : Params) (isNode : Bool)
    (nodeVersion : String) : Heap × HttpClient :=
  let baseURL := createURL params
  let made := createDefaultHeaders h params isNode nodeVersion
  (made.1, { baseURL := baseURL, defaultHeaders := made.2 })

/-- The value returned by `createClient`. The downstream collaborators
`createLinkResolver` and `createContentfulApi` are not among the given
sources; per the spec they receive the record of the HTTP client and the
link-resolution capability flag, which we model as the record itself. -/
structure ClientApi where
  http : HttpClient
  shouldLinksResolve : Bool
deriving DecidableEq

/-- `createClient(params)` from `src/lib/contentful.js`: validates
`accessToken` and `space` (JS falsiness), computes the resolve-links flag
and the composed user-agent signature, then mutates `params` — sets
`params.defaultHostname` and merges the protocol headers into
`params.headers` in place (allocating the object when the caller passed
none) — and builds the HTTP client from the mutated params. Returns the
final heap, the mutated params record and the client. -/
def createClient (h : Heap) (params : Params) (isNode : Bool)
    (nodeVersion : String) : Except String (Heap × Params × ClientApi) :=
  if !jsTruthyS params.accessToken then
    Except.error "Expected parameter accessToken"
  else if !jsTruthyS params.space then
    Except.error "Expected parameter space"
  else
    let resolveLinks := resolveLinksFlag params
    let userAgentHeader :=
      getUserAgentHeader ("contentful.js/" ++ version) params.application params.integration
    let params1 := { params with defaultHostname := some "cdn.contentful.com" }
    let merged : Heap × Ref :=
      match params1.headers with
      | some r => (writeRef h r (objAssign (readRef h r) (protocolHeaders userAgentHeader)), r)
      | none => alloc h (objAssign [] (protocolHeaders userAgentHeader))
    let params2 := { params1 with headers := some merged.2 }
    let built := createNonAxiosHTTPClient merged.1 params2 isNode nodeVersion
    Except.ok (built.1, params2,
      { http := built.2, shouldLinksResolve := resolveLinks })

/-- Both object references held in a `Params` record are live in the
given heap (always true of references produced by `alloc`). -/
def refsValid (h : Heap) (params : Params) : Bool :=
  (match params.headers with
   | some r => r < h.length
   | none => true) &&
  (match params.defaultHeaders with
   | some r => r < h.length
   | none => true)

/-- Whether an `Except` result is a success. -/
def isOk {α : Type} : Except String α → Bool
  | Except.ok _ => true
  | Except.error _ => false

/-- Heap component of a `createClient` result (empty heap on error). -/
def outHeap : Except String (Heap × Params × ClientApi) → Heap
  | Except.ok (h, _, _) => h
  | Except.error _ => []

/-- Params component of a `createClient` result. -/
def outParams : Except String (Heap × Params × ClientApi) → Params
  | Except.ok (_, p, _) => p
  | Except.error _ => {}

/-- Client component of a `createClient` result. -/
def outApi : Except String (Heap × Params × ClientApi) → ClientApi
  | Except.ok (_, _, a) => a
  | Except.error _ =>
    { http := { baseURL := "", defaultHeaders := 0 }, shouldLinksResolve := true }

/-- Heap component of a `get` result. -/
def reqHeap : Except String (Heap × Request) → Heap
  | Except.ok (h, _) => h
  | Except.error _ => []

/-- Request component of a `get` result. -/
def reqOut : Except String (Heap × Request) → Request
  | Except.ok (_, r) => r
  | Except.error _ => { url := "", query := none, headers := [] }

/-- Encoding of a `host` option as hostname plus optional port, the shape
`"hostname[:port]"` the spec ascribes to `host`. -/
def hostOfParts : Option (String × Option String) → Option String
  | none => none
  | some (n, none) => some n
  | some (n, some po) => some (n ++ ":" ++ po)

/-- Well-formedness of the hostname part of a `hostname[:port]` host:
non-empty and colon-free, as the documented `host` shape implies. -/
abbrev hostnameWf (parts : Option (String × Option String)) : Prop :=
  match parts with
  | none => True
  | some (n, _) => n ≠ "" ∧ ':' ∉ n.data

/-- Well-formedness of the port part of a `hostname[:port]` host. -/
abbrev portWf (parts : Option (String × Option String)) : Prop :=
  match parts with
  | some (_, some po) => po ≠ "" ∧ ':' ∉ po.data
  | _ => True

/-- The hostname the claim ascribes to the derived base URL: the part of
`host` before the colon, else the fixed default host. -/
def claimHostname : Option (String × Option String) → String
  | none => "cdn.contentful.com"
  | some (n, _) => n

/-- The port the claim ascribes to the derived base URL: the explicit port
of `host` when present, else 80 when insecure, 443 otherwise. -/
def claimPort : Option (String × Option String) → Bool → String
  | some (_, some po), _ => po
  | some (_, none), insecure => if insecure then "80" else "443"
  | none, insecure => if insecure then "80" else "443"

/-- The base-URL formula exactly as claim C2 states it:
`scheme://hostname:port/spaces/space/`. -/
def claimBaseURL (parts : Option (String × Option String)) (insecure : Bool)
    (space : String) : String :=
  (if insecure then "http" else "https") ++ "://" ++ claimHostname parts ++
    ":" ++ claimPort parts insecure ++ "/spaces/" ++ space ++ "/"

/-- The `Authorization` value `createDefaultHeaders` writes. -/
def bearerOf (params : Params) : String :=
  "Bearer " ++ jsRender params.accessToken

/-- Closed form of the header object `createDefaultHeaders` builds when it
starts from a fresh empty object. -/
def dhContent (params : Params) (isNode : Bool) (nodeVersion : String) : HMap :=
  if isNode then
    [("Authorization", bearerOf params),
     ("user-agent", "node.js/" ++ nodeVersion),
     ("Accept-Encoding", "gzip")]
  else
    [("Authorization", bearerOf params)]

/-- The composed user-agent signature `createClient` computes. -/
def uaOf (params : Params) : String :=
  getUserAgentHeader ("contentful.js/" ++ version) params.application params.integration

/-- The heap after `createClient` has merged the protocol headers into
`params.headers` (mutating the caller's object, or allocating one). -/
def headersHeap (h : Heap) (params : Params) : Heap :=
  match params.headers with
  | some r => writeRef h r (objAssign (readRef h r) (protocolHeaders (uaOf params)))
  | none => h ++ [objAssign [] (protocolHeaders (uaOf params))]

/-- The reference `params.headers` holds after `createClient`'s merge. -/
def headersRefOf (h : Heap) (params : Params) : Ref :=
  match params.headers with
  | some r => r
  | none => h.length

/-- The params record as mutated by a successful `createClient` run. -/
def mutatedParams (h : Heap) (params : Params) : Params :=
  { params with
    defaultHostname := some "cdn.contentful.com"
    headers := some (headersRefOf h params) }

/-! ### Concrete fixtures -/

/-- The spec's sample parameters: accessToken "tok", space "abc". -/
def pSample : Params := { accessToken := some "tok", space := some "abc" }

/-- A `createClient` run on the sample parameters, browser context. -/
def runSample : Except String (Heap × Params × ClientApi) :=
  createClient [] pSample false "8.0.0"

/-- A `get` issued on the sample client with an empty options object. -/
def getSample : Except String (Heap × Request) :=
  HttpClient.get (outHeap runSample) (outApi runSample).http "/entries" (some {})

/-- Per-call options carrying the spec's example header `X-Foo: bar`. -/
def optsFoo : GetOptions := { headers := some [("X-Foo", "bar")] }

/-- A `get` on the sample client with the `X-Foo` per-call header. -/
def getFoo : Except String (Heap × Request) :=
  HttpClient.get (outHeap runSample) (outApi runSample).http "/entries" (some optsFoo)

/-- The spec's second base-URL example: insecure with an explicit port. -/
def pHostEx : Params :=
  { accessToken := some "tok", space := some "abc", insecure := true,
    host := some "example.com:9000" }

/-- A heap holding one caller-owned headers object at reference 0. -/
def hpMut : Heap := [[("X-Mine", "1")]]

/-- Parameters whose `headers` option is the caller's object at ref 0. -/
def pMut : Params :=
  { accessToken := some "tok", space := some "abc", headers := some 0 }

/-- A `createClient` run on `pMut` over `hpMut`. -/
def runMut : Except String (Heap × Params × ClientApi) :=
  createClient hpMut pMut false "8.0.0"

/-- Parameters that supply a caller-owned `defaultHeaders` object (ref 0). -/
def pAlias : Params :=
  { accessToken := some "tok", space := some "abc", defaultHeaders := some 0 }

/-- A `createClient` run on `pAlias` over a one-object heap. -/
def runAlias : Except String (Heap × Params × ClientApi) :=
  createClient [[]] pAlias false "8.0.0"

/-- The heap after the caller mutates, post-construction, the very object
it passed as `defaultHeaders` (still holding ref 0). -/
def heapAliasMut : Heap :=
  writeRef (outHeap runAlias) 0 (objSet (readRef (outHeap runAlias) 0) "X-Evil" "1")

/-- A `get` on the `runAlias` client after the external mutation. -/
def getAlias : Except String (Heap × Request) :=
  HttpClient.get heapAliasMut (outApi runAlias).http "/entries" (some {})

/-! ### Association-list and heap lemmas -/

theorem objGet_objSet (m : HMap) (k v k' : String) :
    objGet (objSet m k v) k' = if k' = k then some v else objGet m k' := by
  induction m with
  | nil =>
    by_cases hk : k' = k
    · simp [objSet, objGet, hk]
    · simp [objSet, objGet, hk, Ne.symm hk]
  | cons kv rest ih =>
    obtain ⟨k0, v0⟩ := kv
    by_cases h0 : k0 = k
    · subst h0
      by_cases hk : k' = k0
      · simp [objSet, objGet, hk]
      · simp [objSet, objGet, hk, Ne.symm hk]
    · by_cases hk : k' = k0
      · subst hk
        simp [objSet, objGet, h0, Ne.symm h0]
      · simp [objSet, objGet, h0, hk, Ne.symm hk, ih]

theorem objGet_eq_none_of_not_mem (m : HMap) (k : String)
    (hk : k ∉ m.map Prod.fst) : objGet m k = none := by
  induction m with
  | nil => rfl
  | cons kv rest ih =>
    obtain ⟨k0, v0⟩ := kv
    simp only [List.map_cons, List.mem_cons] at hk
    push_neg at hk
    simp [objGet, Ne.symm hk.1, ih hk.2]

theorem objAssign_nil (t : HMap) : objAssign t [] = t := rfl

theorem objGet_objAssign_of_none (t src : HMap) (k : String)
    (hk : objGet src k = none) : objGet (objAssign t src) k = objGet t k := by
  induction src generalizing t with
  | nil => rfl
  | cons kv rest ih =>
    obtain ⟨k0, v0⟩ := kv
    simp only [objGet] at hk
    by_cases h0 : k0 = k
    · simp [h0] at hk
    · simp only [h0, if_false] at hk
      show objGet (objAssign (objSet t k0 v0) rest) k = objGet t k
      rw [ih _ hk, objGet_objSet]
      simp [Ne.symm h0]

theorem objGet_objAssign_of_some (t src : HMap) (k v : String)
    (hnd : (src.map Prod.fst).Nodup)
    (hk : objGet src k = some v) : objGet (objAssign t src) k = some v := by
  induction src generalizing t with
  | nil => simp [objGet] at hk
  | cons kv rest ih =>
    obtain ⟨k0, v0⟩ := kv
    simp only [List.map_cons, List.nodup_cons] at hnd
    by_cases h0 : k0 = k
    · subst h0
      have hv : v0 = v := by simpa [objGet] using hk
      subst hv
      show objGet (objAssign (objSet t k0 v0) rest) k0 = some v0
      have hrest : objGet rest k0 = none :=
        objGet_eq_none_of_not_mem rest k0 hnd.1
      rw [objGet_objAssign_of_none _ _ _ hrest, objGet_objSet]
      simp
    · have hk' : objGet rest k = some v := by simpa [objGet, h0] using hk
      show objGet (objAssign (objSet t k0 v0) rest) k = some v
      exact ih _ hnd.2 hk'

theorem length_writeRef (h : Heap) (r : Ref) (m : HMap) :
    (writeRef h r m).length = h.length := by
  simp [writeRef]

theorem readRef_append_ne (h : Heap) (m : HMap) (r : Ref)
    (hr : r ≠ h.length) : readRef (h ++ [m]) r = readRef h r := by
  induction h generalizing r with
  | nil =>
    cases r with
    | zero => exact absurd rfl hr
    | succ n => simp [readRef, List.getD]
  | cons x rest ih =>
    cases r with
    | zero => rfl
    | succ n =>
      simp only [readRef, List.cons_append, List.getD_cons_succ]
      exact ih n (by simpa using hr)

theorem readRef_append_self (h : Heap) (m : HMap) :
    readRef (h ++ [m]) h.length = m := by
  induction h with
  | nil => rfl
  | cons x rest ih =>
    simp only [readRef, List.cons_append, List.length_cons, List.getD_cons_succ]
    exact ih

theorem readRef_writeRef_self (h : Heap) (r : Ref) (m : HMap)
    (hr : r < h.length) : readRef (writeRef h r m) r = m := by
  induction h generalizing r with
  | nil => simp at hr
  | cons x rest ih =>
    cases r with
    | zero => rfl
    | succ n =>
      simp only [writeRef, List.set, readRef, List.getD_cons_succ]
      exact ih n (by simpa using hr)

theorem readRef_writeRef_ne (h : Heap) (r : Ref) (m : HMap) (r' : Ref)
    (hr : r' ≠ r) : readRef (writeRef h r m) r' = readRef h r' := by
  induction h generalizing r r' with
  | nil => rfl
  | cons x rest ih =>
    cases r with
    | zero =>
      cases r' with
      | zero => exact absurd rfl hr
      | succ n => rfl
    | succ n =>
      cases r' with
      | zero => rfl
      | succ n' =>
        simp only [writeRef, List.set, readRef, List.getD_cons_succ]
        exact ih n n' (by simpa using hr)

theorem writeRef_append_self (h : Heap) (x y : HMap) :
    writeRef (h ++ [x]) h.length y = h ++ [y] := by
  induction h with
  | nil => rfl
  | cons z rest ih =>
    simp only [List.cons_append, writeRef, List.set, List.length_cons, List.cons.injEq]
    exact ⟨trivial, ih⟩

theorem readRef_out_of_range (h : Heap) (r : Ref) (hr : h.length ≤ r) :
    readRef h r = [] :=
  List.getD_eq_default _ _ hr

theorem writeRef_out_of_range (h : Heap) (r : Ref) (m : HMap)
    (hr : h.length ≤ r) : writeRef h r m = h :=
  List.set_eq_of_length_le hr

/-! ### Splitting lemmas for `createURL` -/

theorem splitChar_ne_nil (sep : Char) (l : List Char) : splitChar sep l ≠ [] := by
  induction l with
  | nil => simp [splitChar]
  | cons c rest ih =>
    simp only [splitChar]
    cases hsp : splitChar sep rest with
    | nil => exact absurd hsp ih
    | cons g gs =>
      by_cases hc : c = sep <;> simp [hc]

theorem splitChar_not_mem (sep : Char) (l : List Char) (hl : sep ∉ l) :
    splitChar sep l = [l] := by
  induction l with
  | nil => rfl
  | cons c rest ih =>
    simp only [List.mem_cons] at hl
    push_neg at hl
    simp [splitChar, ih hl.2, Ne.symm hl.1]

theorem splitChar_append (sep : Char) (l₁ l₂ : List Char) (h₁ : sep ∉ l₁) :
    splitChar sep (l₁ ++ sep :: l₂) = l₁ :: splitChar sep l₂ := by
  induction l₁ with
  | nil =>
    simp only [List.nil_append, splitChar]
    cases hsp : splitChar sep l₂ with
    | nil => exact absurd hsp (splitChar_ne_nil sep l₂)
    | cons g gs => simp
  | cons c rest ih =>
    simp only [List.mem_cons] at h₁
    push_neg at h₁
    rw [List.cons_append]
    simp only [splitChar, ih h₁.2]
    simp [Ne.symm h₁.1]

theorem jsSplitColon_no_colon (s : String) (hs : ':' ∉ s.data) :
    jsSplitColon s = [s] := by
  simp [jsSplitColon, splitChar_not_mem ':' s.data hs]

theorem jsSplitColon_pair (n po : String) (hn : ':' ∉ n.data) (hp : ':' ∉ po.data) :
    jsSplitColon (n ++ ":" ++ po) = [n, po] := by
  have hdata : (n ++ ":" ++ po).data = n.data ++ ':' :: po.data := by
    simp [String.data_append]
  simp [jsSplitColon, hdata, splitChar_append ':' n.data po.data hn,
    splitChar_not_mem ':' po.data hp]

theorem host_pair_ne_empty (n po : String) : n ++ ":" ++ po ≠ "" := by
  intro hc
  have hdata : (n ++ ":" ++ po).data = n.data ++ ':' :: po.data := by
    simp [String.data_append]
  rw [hc] at hdata
  have hlen := congrArg List.length hdata
  simp at hlen
  omega

/-! ### Characterization of `createDefaultHeaders` and `createClient` -/

theorem createDefaultHeaders_none (h : Heap) (p : Params) (b : Bool) (v : String)
    (hdh : p.defaultHeaders = none) :
    createDefaultHeaders h p b v = (h ++ [dhContent p b v], h.length) := by
  have d1 : ("Authorization" : String) ≠ "user-agent" := by decide
  have d2 : ("Authorization" : String) ≠ "Accept-Encoding" := by decide
  have d3 : ("user-agent" : String) ≠ "Accept-Encoding" := by decide
  cases b <;>
    simp [createDefaultHeaders, hdh, alloc, dhContent, bearerOf, objSet,
      readRef_append_self, writeRef_append_self, d1, d2, d3]

theorem createDefaultHeaders_ref_some (h : Heap) (p : Params) (b : Bool)
    (v : String) (r : Ref) (hdh : p.defaultHeaders = some r) :
    (createDefaultHeaders h p b v).2 = r := by
  cases b <;> simp [createDefaultHeaders, hdh]

theorem createDefaultHeaders_frame (h : Heap) (p : Params) (b : Bool)
    (v : String) (r' : Ref) (hr : r' ≠ (createDefaultHeaders h p b v).2) :
    readRef ((createDefaultHeaders h p b v).1) r' = readRef h r' := by
  cases hdh : p.defaultHeaders with
  | none =>
    rw [createDefaultHeaders_none h p b v hdh] at hr ⊢
    exact readRef_append_ne h _ r' hr
  | some r =>
    rw [createDefaultHeaders_ref_some h p b v r hdh] at hr
    cases b <;>
      simp [createDefaultHeaders, hdh, readRef_writeRef_ne _ _ _ _ hr]

theorem objGet_dhContent_other (p : Params) (b : Bool) (v : String) (k : String)
    (hk1 : k ≠ "Authorization") (hk2 : k ≠ "user-agent")
    (hk3 : k ≠ "Accept-Encoding") : objGet (dhContent p b v) k = none := by
  cases b <;>
    simp [dhContent, objGet, Ne.symm hk1, Ne.symm hk2, Ne.symm hk3]

theorem createDefaultHeaders_objGet_frame (h : Heap) (p : Params) (b : Bool)
    (v : String) (r' : Ref) (k : String)
    (hk1 : k ≠ "Authorization") (hk2 : k ≠ "user-agent")
    (hk3 : k ≠ "Accept-Encoding") :
    objGet (readRef ((createDefaultHeaders h p b v).1) r') k =
      objGet (readRef h r') k := by
  by_cases hr : r' = (createDefaultHeaders h p b v).2
  · cases hdh : p.defaultHeaders with
    | none =>
      rw [createDefaultHeaders_none h p b v hdh] at hr ⊢
      subst hr
      rw [readRef_append_self, readRef_out_of_range h h.length (le_refl _)]
      rw [objGet_dhContent_other p b v k hk1 hk2 hk3]
      rfl
    | some r =>
      rw [createDefaultHeaders_ref_some h p b v r hdh] at hr
      subst hr
      by_cases hlt : r' < h.length
      · cases b <;>
          simp [createDefaultHeaders, hdh, readRef_writeRef_self,
            length_writeRef, hlt, objGet_objSet, hk1, hk2, hk3,
            Ne.symm hk1, Ne.symm hk2, Ne.symm hk3]
      · have hge : h.length ≤ r' := Nat.le_of_not_lt hlt
        cases b <;>
          simp [createDefaultHeaders, hdh,
            writeRef_out_of_range _ _ _ (by simpa [length_writeRef] using hge),
            writeRef_out_of_range _ _ _ hge]
  · rw [createDefaultHeaders_frame h p b v r' hr]

theorem createClient_out (h : Heap) (p : Params) (b : Bool) (v : String)
    (ht : jsTruthyS p.accessToken = true) (hs : jsTruthyS p.space = true) :
    createClient h p b v = Except.ok
      ((createDefaultHeaders (headersHeap h p) (mutatedParams h p) b v).1,
       mutatedParams h p,
       { http :=
           { baseURL := createURL (mutatedParams h p)
             defaultHeaders :=
               (createDefaultHeaders (headersHeap h p) (mutatedParams h p) b v).2 }
         shouldLinksResolve := resolveLinksFlag p }) := by
  cases hph : p.headers with
  | none =>
    simp [createClient, ht, hs, hph, headersHeap, headersRefOf, mutatedParams,
      uaOf, createNonAxiosHTTPClient, alloc]
  | some r =>
    simp [createClient, ht, hs, hph, headersHeap, headersRefOf, mutatedParams,
      uaOf, createNonAxiosHTTPClient]

/-! ### Claim theorems -/

/-- Claim C3: for every params whose `accessToken` is JS-falsy (absent or
empty), `createClient` fails synchronously with the error naming
`accessToken`; for every params with a truthy `accessToken` but falsy
`space` it fails with the error naming `space`. In both cases the result
is `Except.error`, so no client object exists and, the embedding being a
pure value, no request is ever issued. -/
theorem createClient_missing_params :
    (∀ (h : Heap) (p : Params) (b : Bool) (v : String),
      jsTruthyS p.accessToken = false →
      createClient h p b v = Except.error "Expected parameter accessToken") ∧
    (∀ (h : Heap) (p : Params) (b : Bool) (v : String),
      jsTruthyS p.accessToken = true → jsTruthyS p.space = false →
      createClient h p b v = Except.error "Expected parameter space") := by
  constructor
  · intro h p b v ht
    simp [createClient, ht]
  · intro h p b v ht hs
    simp [createClient, ht, hs]

/-- Witness for C3 at concrete inputs: a params with only `space` and a
params with only `accessToken`. -/
theorem createClient_missing_params_witness :
    createClient [] { space := some "abc" } false "8.0.0" =
        Except.error "Expected parameter accessToken" ∧
      createClient [] { accessToken := some "tok" } false "8.0.0" =
        Except.error "Expected parameter space" :=
  ⟨createClient_missing_params.1 [] { space := some "abc" } false "8.0.0" (by decide),
   createClient_missing_params.2 [] { accessToken := some "tok" } false "8.0.0"
     (by decide) (by decide)⟩

/-- Claim C4: the normalized `resolveLinks` flag is decided by key
presence, not truthiness of a default: a present key gives its value (so
an explicit `false` yields `false`), an absent key gives `true`; and a
successful `createClient` hands exactly this flag to the returned api. -/
theorem resolveLinks_key_presence :
    (∀ (p : Params) (b : Bool), p.resolveLinks = some b → resolveLinksFlag p = b) ∧
    (∀ p : Params, p.resolveLinks = none → resolveLinksFlag p = true) ∧
    (∀ (h : Heap) (p : Params) (b : Bool) (v : String),
      jsTruthyS p.accessToken = true → jsTruthyS p.space = true →
      (outApi (createClient h p b v)).shouldLinksResolve = resolveLinksFlag p) := by
  refine ⟨?_, ?_, ?_⟩
  · intro p b hb
    simp [resolveLinksFlag, hb]
  · intro p hb
    simp [resolveLinksFlag, hb]
  · intro h p b v ht hs
    rw [createClient_out h p b v ht hs]
    rfl

/-- Witness for C4: explicit `resolveLinks: false` gives `false`, omission
gives `true`, and a concrete valid run propagates the flag. -/
theorem resolveLinks_key_presence_witness :
    resolveLinksFlag { accessToken := some "tok", resolveLinks := some false } = false ∧
    resolveLinksFlag ({} : Params) = true ∧
    (outApi (createClient [] { accessToken := some "tok", space := some "abc", resolveLinks := some false } false "8.0.0")).shouldLinksResolve =
      resolveLinksFlag { accessToken := some "tok", space := some "abc", resolveLinks := some false } :=
  ⟨resolveLinks_key_presence.1 _ false rfl,
   resolveLinks_key_presence.2.1 {} rfl,
   resolveLinks_key_presence.2.2 [] _ false "8.0.0" (by decide) (by decide)⟩

/-- Claim C10: calling `get` with the options argument omitted fails
synchronously with the TypeError of reading a property of `undefined`
(an `Except.error`, not a rejected future inside `Except.ok`), for every
client and path; whereas any present options object, even the empty one
needing neither query nor headers, succeeds. -/
theorem get_requires_options :
    (∀ (h : Heap) (c : HttpClient) (path : String),
      HttpClient.get h c path none =
        Except.error "TypeError: cannot read property headers of undefined") ∧
    (∀ (h : Heap) (c : HttpClient) (path : String) (opts : GetOptions),
      isOk (HttpClient.get h c path (some opts)) = true) :=
  ⟨fun _ _ _ => rfl, fun _ _ _ _ => rfl⟩

/-- Claim C1 (code bug, evaluated at the failing input): for
accessToken "tok", space "abc", the default headers the client attaches
contain `Authorization: Bearer tok` but neither `Content-Type` nor
`X-Contentful-User-Agent`: `createClient` writes those two into
`params.headers`, while `createNonAxiosHTTPClient` reads
`params.defaultHeaders`, which nothing ever sets. The issued request shows
the same headers. -/
theorem protocol_headers_not_attached :
    isOk runSample = true ∧
    objGet (readRef (outHeap runSample) (outApi runSample).http.defaultHeaders)
      "Authorization" = some "Bearer tok" ∧
    objGet (readRef (outHeap runSample) (outApi runSample).http.defaultHeaders)
      "Content-Type" = none ∧
    objGet (readRef (outHeap runSample) (outApi runSample).http.defaultHeaders)
      "X-Contentful-User-Agent" = none ∧
    objGet (reqOut getSample).headers "Content-Type" = none ∧
    objGet (reqOut getSample).headers "X-Contentful-User-Agent" = none ∧
    objGet (reqOut getSample).headers "Authorization" = some "Bearer tok" := by
  decide

/-- Counterexample to C6 at a concrete input: `createClient` does mutate
the caller's params — it sets `defaultHostname` and writes the protocol
headers into the caller's own headers object (ref 0). -/
theorem createClient_mutates_params_cex :
    isOk runMut = true ∧
    outParams runMut ≠ pMut ∧
    (outParams runMut).defaultHostname = some "cdn.contentful.com" ∧
    pMut.defaultHostname = none ∧
    readRef (outHeap runMut) 0 ≠ readRef hpMut 0 ∧
    objGet (readRef (outHeap runMut) 0) "Content-Type" =
      some "application/vnd.contentful.delivery.v1+json" ∧
    objGet (readRef hpMut 0) "Content-Type" = none := by
  decide

/-- Counterexample to C9 at a concrete input: when the configuration
passes a `defaultHeaders` object, the caller keeps a reference (0) through
which the client's default header mapping is mutable after construction —
an external write through it appears in a later request's headers. -/
theorem client_aliases_caller_defaultHeaders_cex :
    isOk runAlias = true ∧
    pAlias.defaultHeaders = some 0 ∧
    (outApi runAlias).http.defaultHeaders = 0 ∧
    objGet (reqOut getAlias).headers "X-Evil" = some "1" := by
  decide

/-- Claim C7: if and only if the host runtime probe reports a server-side
(node) environment does `createDefaultHeaders` set the runtime-identifying
`user-agent` header and `Accept-Encoding: gzip`; with the probe false
(browser-hosted) neither key is present — starting, as every
`createClient` run does, from no pre-existing `defaultHeaders` object. -/
theorem node_only_headers (h : Heap) (p : Params) (v : String)
    (hdh : p.defaultHeaders = none) :
    (objGet (readRef (createDefaultHeaders h p true v).1
        (createDefaultHeaders h p true v).2) "user-agent" = some ("node.js/" ++ v) ∧
     objGet (readRef (createDefaultHeaders h p true v).1
        (createDefaultHeaders h p true v).2) "Accept-Encoding" = some "gzip") ∧
    (objGet (readRef (createDefaultHeaders h p false v).1
        (createDefaultHeaders h p false v).2) "user-agent" = none ∧
     objGet (readRef (createDefaultHeaders h p false v).1
        (createDefaultHeaders h p false v).2) "Accept-Encoding" = none) := by
  rw [createDefaultHeaders_none h p true v hdh, createDefaultHeaders_none h p false v hdh]
  refine ⟨⟨?_, ?_⟩, ?_, ?_⟩ <;>
    · show objGet (readRef (h ++ [_]) h.length) _ = _
      rw [readRef_append_self]
      rfl

/-- Witness for C7 at a concrete input. -/
theorem node_only_headers_witness :
    pSample.defaultHeaders = none ∧
    ((objGet (readRef (createDefaultHeaders [] pSample true "8.0.0").1
        (createDefaultHeaders [] pSample true "8.0.0").2) "user-agent" =
          some ("node.js/" ++ "8.0.0") ∧
      objGet (readRef (createDefaultHeaders [] pSample true "8.0.0").1
        (createDefaultHeaders [] pSample true "8.0.0").2) "Accept-Encoding" =
          some "gzip") ∧
     (objGet (readRef (createDefaultHeaders [] pSample false "8.0.0").1
        (createDefaultHeaders [] pSample false "8.0.0").2) "user-agent" = none ∧
      objGet (readRef (createDefaultHeaders [] pSample false "8.0.0").1
        (createDefaultHeaders [] pSample false "8.0.0").2) "Accept-Encoding" = none)) :=
  ⟨rfl, node_only_headers [] pSample "8.0.0" rfl⟩

theorem createURL_parts (q : Params) (parts : Option (String × Option String))
    (hname : hostnameWf parts) (hport : portWf parts)
    (hdn : q.defaultHostname = some "cdn.contentful.com")
    (hh : q.host = hostOfParts parts)
    (hs : jsTruthyS q.space = true) :
    createURL q = claimBaseURL parts q.insecure (jsRender q.space) := by
  rcases parts with _ | ⟨n, po⟩
  · simp only [hostOfParts] at hh
    have hf : jsTruthyS none = false := rfl
    simp [createURL, claimBaseURL, claimHostname, claimPort, hh, hdn, hs, hf,
      jsRender]
  · rcases po with _ | po
    · simp only [hostOfParts] at hh
      obtain ⟨hne, hnc⟩ := hname
      have hn : jsTruthyS (some n) = true := by simp [jsTruthyS, hne]
      have hf : jsTruthyS none = false := rfl
      simp [createURL, claimBaseURL, claimHostname, claimPort, hh, hdn, hs,
        hne, hn, hf, jsSplitColon_no_colon n hnc, jsRender]
    · simp only [hostOfParts] at hh
      obtain ⟨hne, hnc⟩ := hname
      obtain ⟨hpe, hpc⟩ := hport
      have hn : jsTruthyS (some n) = true := by simp [jsTruthyS, hne]
      have hp : jsTruthyS (some po) = true := by simp [jsTruthyS, hpe]
      simp [createURL, claimBaseURL, claimHostname, claimPort, hh, hdn, hs,
        host_pair_ne_empty n po, jsSplitColon_pair n po hnc hpc, hn, hp,
        jsRender]

/-- Claim C2: for every valid params (truthy space and accessToken) whose
`host` option has the documented `hostname[:port]` shape, the derived base
URL is `scheme://hostname:port/spaces/space/` where the scheme is http iff
`insecure` (never parsed out of `host`), the hostname is the part of
`host` before the colon, defaulting to cdn.contentful.com when `host` is
absent, and the port is the part of `host` after the colon when present
(the explicit port always wins), else 80 when insecure, 443 otherwise. -/
theorem createClient_baseURL (h : Heap) (p : Params) (b : Bool) (v : String)
    (parts : Option (String × Option String))
    (hname : hostnameWf parts) (hport : portWf parts)
    (ht : jsTruthyS p.accessToken = true) (hs : jsTruthyS p.space = true)
    (hh : p.host = hostOfParts parts) :
    isOk (createClient h p b v) = true ∧
    (outApi (createClient h p b v)).http.baseURL =
      claimBaseURL parts p.insecure (jsRender p.space) := by
  rw [createClient_out h p b v ht hs]
  refine ⟨rfl, ?_⟩
  show createURL (mutatedParams h p) = _
  exact createURL_parts (mutatedParams h p) parts hname hport rfl hh hs

/-- Witness for C2 at the spec's two examples: no host over https, and an
insecure host with explicit port. -/
theorem createClient_baseURL_witness :
    (isOk (createClient [] pSample false "8.0.0") = true ∧
     (outApi (createClient [] pSample false "8.0.0")).http.baseURL =
       "https://cdn.contentful.com:443/spaces/abc/") ∧
    (isOk (createClient [] pHostEx false "8.0.0") = true ∧
     (outApi (createClient [] pHostEx false "8.0.0")).http.baseURL =
       "http://example.com:9000/spaces/abc/") := by
  constructor
  · have hw := createClient_baseURL [] pSample false "8.0.0" none
      trivial trivial (by decide) (by decide) rfl
    exact ⟨hw.1, by rw [hw.2]; decide⟩
  · have hw := createClient_baseURL [] pHostEx false "8.0.0"
      (some ("example.com", some "9000")) (by decide) (by decide)
      (by decide) (by decide) (by decide)
    exact ⟨hw.1, by rw [hw.2]; decide⟩

theorem get_char (h : Heap) (c : HttpClient) (path : String) (opts : GetOptions) :
    HttpClient.get h c path (some opts) = Except.ok
      (h ++ [objAssign (readRef h c.defaultHeaders) (opts.headers.getD [])],
       { url := c.baseURL ++ path
         query := opts.query
         headers := objAssign (readRef h c.defaultHeaders) (opts.headers.getD []) }) := by
  simp [HttpClient.get, alloc, readRef_append_self, writeRef_append_self]

/-- Claim C5: the headers a `get(path, options)` call sends are
`options.headers` merged over a fresh copy of the client's default
headers — per-call headers win on key collision (for per-call maps with
distinct keys, as JS object literals have), untouched keys fall through to
the defaults — and the client's stored default-header object is unchanged
by the call: a later `get` with no per-call headers sends exactly the
original defaults, never keys added by the earlier call. -/
theorem get_merges_and_preserves_defaults (h : Heap) (c : HttpClient)
    (path : String) (opts : GetOptions)
    (hval : c.defaultHeaders < h.length)
    (hnd : ((opts.headers.getD []).map Prod.fst).Nodup) :
    isOk (HttpClient.get h c path (some opts)) = true ∧
    (∀ k v, objGet (opts.headers.getD []) k = some v →
      objGet (reqOut (HttpClient.get h c path (some opts))).headers k = some v) ∧
    (∀ k, objGet (opts.headers.getD []) k = none →
      objGet (reqOut (HttpClient.get h c path (some opts))).headers k =
        objGet (readRef h c.defaultHeaders) k) ∧
    readRef (reqHeap (HttpClient.get h c path (some opts))) c.defaultHeaders =
      readRef h c.defaultHeaders ∧
    (∀ path2,
      (reqOut (HttpClient.get (reqHeap (HttpClient.get h c path (some opts)))
        c path2 (some {}))).headers = readRef h c.defaultHeaders) := by
  have hne : c.defaultHeaders ≠ h.length := Nat.ne_of_lt hval
  rw [get_char]
  refine ⟨rfl, ?_, ?_, ?_, ?_⟩
  · intro k v hk
    exact objGet_objAssign_of_some _ _ k v hnd hk
  · intro k hk
    exact objGet_objAssign_of_none _ _ k hk
  · exact readRef_append_ne h _ c.defaultHeaders hne
  · intro path2
    rw [get_char]
    show objAssign (readRef (h ++ [_]) c.defaultHeaders) ((none : Option HMap).getD []) = _
    rw [readRef_append_ne h _ c.defaultHeaders hne]
    rfl

/-- Witness for C5 on the sample client: the merged set carries both
`X-Foo: bar` and the default `Authorization`, and a second call with no
per-call headers sees the untouched defaults. -/
theorem get_merges_and_preserves_defaults_witness :
    ((outApi runSample).http.defaultHeaders < (outHeap runSample).length ∧
     (((optsFoo.headers).getD []).map Prod.fst).Nodup) ∧
    isOk getFoo = true ∧
    objGet (reqOut getFoo).headers "X-Foo" = some "bar" ∧
    objGet (reqOut getFoo).headers "Authorization" = some "Bearer tok" ∧
    readRef (reqHeap getFoo) (outApi runSample).http.defaultHeaders =
      readRef (outHeap runSample) (outApi runSample).http.defaultHeaders ∧
    (reqOut (HttpClient.get (reqHeap getFoo) (outApi runSample).http "/two"
      (some {}))).headers =
      readRef (outHeap runSample) (outApi runSample).http.defaultHeaders := by
  have hw := get_merges_and_preserves_defaults (outHeap runSample)
    (outApi runSample).http "/entries" optsFoo (by decide) (by decide)
  exact ⟨⟨by decide, by decide⟩, hw.1,
    hw.2.1 "X-Foo" "bar" (by decide),
    (hw.2.2.1 "Authorization" (by decide)).trans (by decide),
    hw.2.2.2.1, hw.2.2.2.2 "/two"⟩

theorem objGet_protocolHeaders_other (ua k : String)
    (hk1 : k ≠ "Content-Type") (hk2 : k ≠ "X-Contentful-User-Agent") :
    objGet (protocolHeaders ua) k = none := by
  simp [protocolHeaders, objGet, Ne.symm hk1, Ne.symm hk2]

theorem protocolHeaders_keys_nodup (ua : String) :
    ((protocolHeaders ua).map Prod.fst).Nodup := by
  simp [protocolHeaders]

/-- Claim C6 (amended): normalization performs no I/O, but it does mutate
the caller-supplied params object: a successful `createClient` sets
`params.defaultHostname` to cdn.contentful.com and reassigns
`params.headers` to the in-place merge of the caller's headers object
with the protocol headers (Content-Type and the composed user-agent
signature force-set, other caller headers passing through); every other
field of params is left unchanged. -/
theorem createClient_mutation_profile (h : Heap) (p : Params) (b : Bool)
    (v : String)
    (ht : jsTruthyS p.accessToken = true) (hs : jsTruthyS p.space = true)
    (hrv : refsValid h p = true) :
    isOk (createClient h p b v) = true ∧
    (outParams (createClient h p b v)).accessToken = p.accessToken ∧
    (outParams (createClient h p b v)).space = p.space ∧
    (outParams (createClient h p b v)).insecure = p.insecure ∧
    (outParams (createClient h p b v)).host = p.host ∧
    (outParams (createClient h p b v)).defaultHeaders = p.defaultHeaders ∧
    (outParams (createClient h p b v)).resolveLinks = p.resolveLinks ∧
    (outParams (createClient h p b v)).application = p.application ∧
    (outParams (createClient h p b v)).integration = p.integration ∧
    (outParams (createClient h p b v)).defaultHostname =
      some "cdn.contentful.com" ∧
    (outParams (createClient h p b v)).headers = some (headersRefOf h p) ∧
    objGet (readRef (outHeap (createClient h p b v)) (headersRefOf h p))
      "Content-Type" = some "application/vnd.contentful.delivery.v1+json" ∧
    objGet (readRef (outHeap (createClient h p b v)) (headersRefOf h p))
      "X-Contentful-User-Agent" = some (uaOf p) ∧
    (∀ k, k ≠ "Content-Type" → k ≠ "X-Contentful-User-Agent" →
      k ≠ "Authorization" → k ≠ "user-agent" → k ≠ "Accept-Encoding" →
      objGet (readRef (outHeap (createClient h p b v)) (headersRefOf h p)) k =
        (match p.headers with
         | some r => objGet (readRef h r) k
         | none => none)) := by
  rw [createClient_out h p b v ht hs]
  have hCT := createDefaultHeaders_objGet_frame (headersHeap h p)
    (mutatedParams h p) b v (headersRefOf h p) "Content-Type"
    (by decide) (by decide) (by decide)
  have hXUA := createDefaultHeaders_objGet_frame (headersHeap h p)
    (mutatedParams h p) b v (headersRefOf h p) "X-Contentful-User-Agent"
    (by decide) (by decide) (by decide)
  refine ⟨rfl, rfl, rfl, rfl, rfl, rfl, rfl, rfl, rfl, rfl, rfl, ?_, ?_, ?_⟩
  · show objGet (readRef (createDefaultHeaders (headersHeap h p)
      (mutatedParams h p) b v).1 (headersRefOf h p)) "Content-Type" = _
    rw [hCT]
    cases hph : p.headers with
    | none =>
      simp only [headersHeap, headersRefOf, hph]
      rw [readRef_append_self]
      rfl
    | some r =>
      have hlt : r < h.length := by
        simp [refsValid, hph] at hrv
        exact hrv.1
      simp only [headersHeap, headersRefOf, hph]
      rw [readRef_writeRef_self _ _ _ hlt]
      exact objGet_objAssign_of_some _ _ _ _ (protocolHeaders_keys_nodup _) rfl
  · show objGet (readRef (createDefaultHeaders (headersHeap h p)
      (mutatedParams h p) b v).1 (headersRefOf h p)) "X-Contentful-User-Agent" = _
    rw [hXUA]
    cases hph : p.headers with
    | none =>
      simp only [headersHeap, headersRefOf, hph]
      rw [readRef_append_self]
      rfl
    | some r =>
      have hlt : r < h.length := by
        simp [refsValid, hph] at hrv
        exact hrv.1
      simp only [headersHeap, headersRefOf, hph]
      rw [readRef_writeRef_self _ _ _ hlt]
      exact objGet_objAssign_of_some _ _ _ _ (protocolHeaders_keys_nodup _) rfl
  · intro k hk1 hk2 hk3 hk4 hk5
    have hF := createDefaultHeaders_objGet_frame (headersHeap h p)
      (mutatedParams h p) b v (headersRefOf h p) k hk3 hk4 hk5
    show objGet (readRef (createDefaultHeaders (headersHeap h p)
      (mutatedParams h p) b v).1 (headersRefOf h p)) k = _
    rw [hF]
    have hPH : objGet (protocolHeaders (uaOf p)) k = none :=
      objGet_protocolHeaders_other (uaOf p) k hk1 hk2
    cases hph : p.headers with
    | none =>
      simp only [headersHeap, headersRefOf, hph]
      rw [readRef_append_self, objGet_objAssign_of_none _ _ _ hPH]
      rfl
    | some r =>
      have hlt : r < h.length := by
        simp [refsValid, hph] at hrv
        exact hrv.1
      simp only [headersHeap, headersRefOf, hph]
      rw [readRef_writeRef_self _ _ _ hlt, objGet_objAssign_of_none _ _ _ hPH]

/-- Witness for C6's amended theorem at the `runMut` fixture. -/
theorem createClient_mutation_profile_witness :
    (jsTruthyS pMut.accessToken = true ∧ jsTruthyS pMut.space = true ∧
     refsValid hpMut pMut = true) ∧
    (outParams runMut).defaultHostname = some "cdn.contentful.com" ∧
    (outParams runMut).headers = some (headersRefOf hpMut pMut) ∧
    (outParams runMut).host = pMut.host ∧
    objGet (readRef (outHeap runMut) (headersRefOf hpMut pMut)) "Content-Type" =
      some "application/vnd.contentful.delivery.v1+json" ∧
    objGet (readRef (outHeap runMut) (headersRefOf hpMut pMut)) "X-Mine" =
      objGet (readRef hpMut 0) "X-Mine" := by
  have hw := createClient_mutation_profile hpMut pMut false "8.0.0"
    (by decide) (by decide) (by decide)
  refine ⟨⟨by decide, by decide, by decide⟩, hw.2.2.2.2.2.2.2.2.2.1,
    hw.2.2.2.2.2.2.2.2.2.2.1, hw.2.2.2.2.1, hw.2.2.2.2.2.2.2.2.2.2.2.1, ?_⟩
  have hFrame := hw.2.2.2.2.2.2.2.2.2.2.2.2.2 "X-Mine"
    (by decide) (by decide) (by decide) (by decide) (by decide)
  exact hFrame

/-- Claim C9 (amended): the client owns its default-header object only
when the configuration supplies no `defaultHeaders` object: then the
object is freshly allocated — its reference lies beyond every reference
live before the call, so no external party can reach it. When the caller
does pass `params.defaultHeaders`, the client aliases that very object
(the counterexample shows the resulting external mutability). -/
theorem defaultHeaders_ownership (h : Heap) (p : Params) (b : Bool)
    (v : String)
    (ht : jsTruthyS p.accessToken = true) (hs : jsTruthyS p.space = true) :
    (p.defaultHeaders = none →
      h.length ≤ (outApi (createClient h p b v)).http.defaultHeaders) ∧
    (∀ r, p.defaultHeaders = some r →
      (outApi (createClient h p b v)).http.defaultHeaders = r) := by
  rw [createClient_out h p b v ht hs]
  constructor
  · intro hdh
    show h.length ≤
      (createDefaultHeaders (headersHeap h p) (mutatedParams h p) b v).2
    rw [createDefaultHeaders_none (headersHeap h p) (mutatedParams h p) b v
      (show (mutatedParams h p).defaultHeaders = none from hdh)]
    show h.length ≤ (headersHeap h p).length
    cases hph : p.headers with
    | none =>
      simp only [headersHeap, hph, List.length_append, List.length_cons,
        List.length_nil]
      omega
    | some r =>
      simp only [headersHeap, hph, writeRef, List.length_set]
      omega
  · intro r hdh
    show (createDefaultHeaders (headersHeap h p) (mutatedParams h p) b v).2 = r
    exact createDefaultHeaders_ref_some _ _ b v r hdh

/-- Witness for C9's amended theorem: fresh allocation beyond a one-object
heap when no `defaultHeaders` is given, aliasing of ref 0 when it is. -/
theorem defaultHeaders_ownership_witness :
    (jsTruthyS pSample.accessToken = true ∧ jsTruthyS pSample.space = true) ∧
    ([[("A", "b")]] : Heap).length ≤
      (outApi (createClient [[("A", "b")]] pSample false "8.0.0")).http.defaultHeaders ∧
    (outApi runAlias).http.defaultHeaders = 0 := by
  refine ⟨⟨by decide, by decide⟩, ?_, ?_⟩
  · exact (defaultHeaders_ownership [[("A", "b")]] pSample false "8.0.0"
      (by decide) (by decide)).1 rfl
  · exact (defaultHeaders_ownership [[]] pAlias false "8.0.0"
      (by decide) (by decide)).2 0 rfl

theorem createClient_defaults_spec (h : Heap) (p : Params) (b : Bool)
    (v : String)
    (ht : jsTruthyS p.accessToken = true) (hs : jsTruthyS p.space = true)
    (hdh : p.defaultHeaders = none) :
    outHeap (createClient h p b v) = headersHeap h p ++ [dhContent p b v] ∧
    (outApi (createClient h p b v)).http.defaultHeaders =
      (headersHeap h p).length := by
  rw [createClient_out h p b v ht hs]
  constructor
  · show (createDefaultHeaders (headersHeap h p) (mutatedParams h p) b v).1 = _
    rw [createDefaultHeaders_none (headersHeap h p) (mutatedParams h p) b v
      (show (mutatedParams h p).defaultHeaders = none from hdh)]
    rfl
  · show (createDefaultHeaders (headersHeap h p) (mutatedParams h p) b v).2 = _
    rw [createDefaultHeaders_none (headersHeap h p) (mutatedParams h p) b v
      (show (mutatedParams h p).defaultHeaders = none from hdh)]

theorem headersHeap_length_le (H : Heap) (p : Params) :
    H.length ≤ (headersHeap H p).length := by
  cases hph : p.headers with
  | none =>
    simp only [headersHeap, hph, List.length_append, List.length_cons,
      List.length_nil]
    omega
  | some r =>
    simp only [headersHeap, hph, writeRef, List.length_set]
    omega

/-- Claim C8: two successive `createClient` calls with identical valid
parameters (no caller-supplied `defaultHeaders` object — not among the
documented configuration options — and live header refs) produce
functionally equivalent clients: both succeed, both derive the same base
URL, and their default-header objects hold equal contents; and the two
instances share no mutable state: the default-header objects are distinct
references, and writing through either one leaves the other's observable
contents unchanged. -/
theorem createClient_idempotent_no_sharing (h : Heap) (p : Params) (b : Bool)
    (v : String)
    (ht : jsTruthyS p.accessToken = true) (hs : jsTruthyS p.space = true)
    (hdh : p.defaultHeaders = none) (hrv : refsValid h p = true) :
    isOk (createClient h p b v) = true ∧
    isOk (createClient (outHeap (createClient h p b v)) p b v) = true ∧
    (outApi (createClient h p b v)).http.baseURL =
      (outApi (createClient (outHeap (createClient h p b v)) p b v)).http.baseURL ∧
    readRef (outHeap (createClient (outHeap (createClient h p b v)) p b v))
        (outApi (createClient h p b v)).http.defaultHeaders =
      readRef (outHeap (createClient (outHeap (createClient h p b v)) p b v))
        (outApi (createClient (outHeap (createClient h p b v)) p b v)).http.defaultHeaders ∧
    (outApi (createClient h p b v)).http.defaultHeaders ≠
      (outApi (createClient (outHeap (createClient h p b v)) p b v)).http.defaultHeaders ∧
    (∀ m, readRef
        (writeRef (outHeap (createClient (outHeap (createClient h p b v)) p b v))
          (outApi (createClient (outHeap (createClient h p b v)) p b v)).http.defaultHeaders m)
        (outApi (createClient h p b v)).http.defaultHeaders =
      readRef (outHeap (createClient (outHeap (createClient h p b v)) p b v))
        (outApi (createClient h p b v)).http.defaultHeaders) ∧
    (∀ m, readRef
        (writeRef (outHeap (createClient (outHeap (createClient h p b v)) p b v))
          (outApi (createClient h p b v)).http.defaultHeaders m)
        (outApi (createClient (outHeap (createClient h p b v)) p b v)).http.defaultHeaders =
      readRef (outHeap (createClient (outHeap (createClient h p b v)) p b v))
        (outApi (createClient (outHeap (createClient h p b v)) p b v)).http.defaultHeaders) := by
  obtain ⟨hH1, hrA⟩ := createClient_defaults_spec h p b v ht hs hdh
  obtain ⟨hH2, hrB⟩ :=
    createClient_defaults_spec (outHeap (createClient h p b v)) p b v ht hs hdh
  have hlenJ : h.length ≤ (headersHeap h p).length := headersHeap_length_le h p
  have hA_lt : (outApi (createClient h p b v)).http.defaultHeaders <
      (outHeap (createClient h p b v)).length := by
    rw [hrA, hH1]
    simp
  have hB_ge : (outHeap (createClient h p b v)).length ≤
      (outApi (createClient (outHeap (createClient h p b v)) p b v)).http.defaultHeaders := by
    rw [hrB]
    exact headersHeap_length_le _ p
  have hne : (outApi (createClient h p b v)).http.defaultHeaders ≠
      (outApi (createClient (outHeap (createClient h p b v)) p b v)).http.defaultHeaders :=
    Nat.ne_of_lt (Nat.lt_of_lt_of_le hA_lt hB_ge)
  have hok1 : isOk (createClient h p b v) = true := by
    rw [createClient_out h p b v ht hs]
    rfl
  have hok2 : isOk (createClient (outHeap (createClient h p b v)) p b v) = true := by
    rw [createClient_out (outHeap (createClient h p b v)) p b v ht hs]
    rfl
  have hurl : (outApi (createClient h p b v)).http.baseURL =
      (outApi (createClient (outHeap (createClient h p b v)) p b v)).http.baseURL := by
    rw [createClient_out (outHeap (createClient h p b v)) p b v ht hs,
      createClient_out h p b v ht hs]
    rfl
  have hcB : readRef (outHeap (createClient (outHeap (createClient h p b v)) p b v))
      (outApi (createClient (outHeap (createClient h p b v)) p b v)).http.defaultHeaders =
      dhContent p b v := by
    rw [hH2, hrB, readRef_append_self]
  have hcA : readRef (outHeap (createClient (outHeap (createClient h p b v)) p b v))
      (outApi (createClient h p b v)).http.defaultHeaders = dhContent p b v := by
    rw [hH2]
    rw [readRef_append_ne _ _ _
      (Nat.ne_of_lt (Nat.lt_of_lt_of_le hA_lt (headersHeap_length_le _ p)))]
    cases hph : p.headers with
    | none =>
      simp only [headersHeap, hph]
      rw [readRef_append_ne _ _ _ (Nat.ne_of_lt hA_lt)]
      rw [hH1, hrA, readRef_append_self]
    | some r =>
      have hrlt : r < h.length := by
        simp [refsValid, hph] at hrv
        exact hrv.1
      have hrne : (outApi (createClient h p b v)).http.defaultHeaders ≠ r := by
        rw [hrA]
        exact Nat.ne_of_gt (Nat.lt_of_lt_of_le hrlt hlenJ)
      simp only [headersHeap, hph]
      rw [readRef_writeRef_ne _ _ _ _ hrne]
      rw [hH1, hrA, readRef_append_self]
  exact ⟨hok1, hok2, hurl, hcA.trans hcB.symm, hne,
    fun m => readRef_writeRef_ne _ _ _ _ hne,
    fun m => readRef_writeRef_ne _ _ _ _ (Ne.symm hne)⟩

/-- Witness for C8 on the sample parameters over the empty heap. -/
theorem createClient_idempotent_no_sharing_witness :
    (jsTruthyS pSample.accessToken = true ∧ jsTruthyS pSample.space = true ∧
     pSample.defaultHeaders = none ∧ refsValid [] pSample = true) ∧
    isOk (createClient [] pSample false "8.0.0") = true ∧
    (outApi (createClient [] pSample false "8.0.0")).http.baseURL =
      (outApi (createClient (outHeap (createClient [] pSample false "8.0.0"))
        pSample false "8.0.0")).http.baseURL ∧
    (outApi (createClient [] pSample false "8.0.0")).http.defaultHeaders ≠
      (outApi (createClient (outHeap (createClient [] pSample false "8.0.0"))
        pSample false "8.0.0")).http.defaultHeaders ∧
    readRef
        (writeRef (outHeap (createClient (outHeap (createClient [] pSample false "8.0.0")) pSample false "8.0.0"))
          (outApi (createClient (outHeap (createClient [] pSample false "8.0.0")) pSample false "8.0.0")).http.defaultHeaders
          [("X-Evil", "1")])
        (outApi (createClient [] pSample false "8.0.0")).http.defaultHeaders =
      readRef (outHeap (createClient (outHeap (createClient [] pSample false "8.0.0")) pSample false "8.0.0"))
        (outApi (createClient [] pSample false "8.0.0")).http.defaultHeaders := by
  have hw := createClient_idempotent_no_sharing [] pSample false "8.0.0"
    (by decide) (by decide) rfl (by decide)
  exact ⟨⟨by decide, by decide, rfl, by decide⟩, hw.1, hw.2.2.1,
    hw.2.2.2.2.1, hw.2.2.2.2.2.1 [("X-Evil", "1")]⟩
